import Mathlib

/-!
Verification of the record-lifecycle engine of the `harvester` repository.

The development shallow-embeds the SQL state-transition queries and the
batched worker loops of the harvester/indexer as pure Lean functions over
an explicit store (a list of rows), and proves the spec's invariants and
transition contracts about them.  Machine timestamps (`NOW()`) are passed
in as an explicit `now : Nat` tick; nullable columns are `Option`s.
-/

namespace Harvester

/-- Extracted metadata as produced by the XML extractor and stored in the
`metadata` JSON column: arrays of strings per key (spec section 3). -/
abbrev MetadataJson := List (String × List String)

/-- One row of the `oai_records` table.  The column `metadata_prefix` is
named `metadata_pfx` here because of a Lean keyword clash; everything else
keeps the schema's names. -/
structure OaiRecord where
  endpoint : String
  metadata_pfx : String
  identifier : String
  datestamp : String
  fingerprint : String
  status : String
  message : String
  metadata : MetadataJson
  index_status : String
  index_message : String
  index_attempts : Int
  last_checked_at : Option Nat
  index_last_checked_at : Option Nat
  indexed_at : Option Nat
  purged_at : Option Nat
  version : Int
  deriving Repr, DecidableEq

/-- The record store: the `oai_records` table as a list of rows. -/
abbrev Store := List OaiRecord

/-- Projection returned by the selection queries (`SELECT identifier,
fingerprint`), mirroring `OaiRecordId` in `src/oai.rs`. -/
structure OaiRecordId where
  identifier : String
  fingerprint : String
  deriving Repr, DecidableEq

/-- Semantics of a single-table SQL `UPDATE ... SET f ... WHERE pre`:
rows satisfying `pre` are rewritten by `f`, all other rows are untouched,
and the second component is `rows_affected`. -/
def sqlUpdate (pre : OaiRecord → Bool) (f : OaiRecord → OaiRecord) (db : Store) :
    Store × Nat :=
  (db.map fun r => if pre r then f r else r, db.countP pre)

/-- Identity-triple match used by every per-record `WHERE` clause. -/
def idMatch (endpoint metadata_pfx identifier : String) (r : OaiRecord) : Bool :=
  r.endpoint == endpoint && r.metadata_pfx == metadata_pfx && r.identifier == identifier

/-- Parameters of the guarded transition queries (`RecordTransitionParams`
in `src/db/harvester.rs`). -/
structure RecordTransitionParams where
  endpoint : String
  metadata_pfx : String
  identifier : String

/-- Parameters of the failure transition queries (`RecordFailureParams`). -/
structure RecordFailureParams where
  endpoint : String
  metadata_pfx : String
  identifier : String
  message : String

/-- Parameters of the metadata-success query (`RecordParsedParams`). -/
structure RecordParsedParams where
  endpoint : String
  metadata_pfx : String
  identifier : String
  metadata : MetadataJson

/-- Transition `pending -> available` (`do_mark_download_success_query`,
`src/db/harvester.rs`): sets `status='available'`, clears `message`, bumps
`last_checked_at`; `WHERE` asserts the identity and `status='pending'`. -/
def do_mark_download_success_query (now : Nat) (p : RecordTransitionParams)
    (db : Store) : Store × Nat :=
  sqlUpdate
    (fun r => idMatch p.endpoint p.metadata_pfx p.identifier r && r.status == "pending")
    (fun r => { r with status := "available", message := "", last_checked_at := some now })
    db

/-- Transition `pending -> failed` (`do_mark_download_failure_query`,
`src/db/harvester.rs`). -/
def do_mark_download_failure_query (now : Nat) (p : RecordFailureParams)
    (db : Store) : Store × Nat :=
  sqlUpdate
    (fun r => idMatch p.endpoint p.metadata_pfx p.identifier r && r.status == "pending")
    (fun r => { r with status := "failed", message := p.message, last_checked_at := some now })
    db

/-- Transition `available -> failed` (`do_mark_metadata_failure_query`,
`src/db/harvester.rs`). -/
def do_mark_metadata_failure_query (now : Nat) (p : RecordFailureParams)
    (db : Store) : Store × Nat :=
  sqlUpdate
    (fun r => idMatch p.endpoint p.metadata_pfx p.identifier r && r.status == "available")
    (fun r => { r with status := "failed", message := p.message, last_checked_at := some now })
    db

/-- Transition `available -> parsed` with full index-lifecycle reset
(`do_mark_metadata_success_query`, `src/db/harvester.rs`). -/
def do_mark_metadata_success_query (now : Nat) (p : RecordParsedParams)
    (db : Store) : Store × Nat :=
  sqlUpdate
    (fun r => idMatch p.endpoint p.metadata_pfx p.identifier r && r.status == "available")
    (fun r => { r with
        status := "parsed"
        metadata := p.metadata
        message := ""
        index_status := "pending"
        index_message := ""
        index_attempts := 0
        indexed_at := none
        purged_at := none
        index_last_checked_at := none
        last_checked_at := some now })
    db

/-- Parameters of the unguarded status update (`UpdateStatusParams` in
`src/db.rs`). -/
structure UpdateStatusParams where
  endpoint : String
  metadata_pfx : String
  identifier : String
  status : String
  message : String

/-- Unguarded status update (`do_update_status_query`, `src/db.rs`): the
`WHERE` clause matches the identity triple only, with no source-state
condition.  The metadata phase (`src/harvester/metadata.rs`) applies the
`available -> failed` transition through this query. -/
def do_update_status_query (now : Nat) (p : UpdateStatusParams)
    (db : Store) : Store × Nat :=
  sqlUpdate
    (fun r => idMatch p.endpoint p.metadata_pfx p.identifier r)
    (fun r => { r with status := p.status, message := p.message, last_checked_at := some now })
    db

/-- Metadata-success update as wired in `src/harvester/metadata.rs`
(`update_record_metadata`): sets `status='parsed'`, stores the metadata and
bumps `last_checked_at`; the `WHERE` clause matches the identity only. -/
def update_record_metadata (now : Nat) (endpoint metadata_pfx identifier : String)
    (metadata : MetadataJson) (db : Store) : Store × Nat :=
  sqlUpdate
    (fun r => idMatch endpoint metadata_pfx identifier r)
    (fun r => { r with status := "parsed", metadata := metadata, last_checked_at := some now })
    db

/-- Parameters of the harvester selection query (`FetchRecordsParams` in
`src/db.rs` / `src/db/mod.rs`). -/
structure FetchRecordsParams where
  endpoint : String
  metadata_pfx : String
  status : String
  last_identifier : Option String

/-- Row predicate of `fetch_records_by_status`: identity scope, requested
status, and — when keyset-paginating — `identifier > last_identifier`. -/
def fetchByStatusPred (p : FetchRecordsParams) (r : OaiRecord) : Bool :=
  r.endpoint == p.endpoint && r.metadata_pfx == p.metadata_pfx && r.status == p.status &&
    (match p.last_identifier with
     | some last => decide (last < r.identifier)
     | none => true)

/-- Boolean identifier order used to model `ORDER BY identifier`. -/
def identLE (a b : OaiRecord) : Bool :=
  decide (a.identifier ≤ b.identifier)

/-- Selection query of the harvester phases (`fetch_records_by_status`,
`src/db.rs` / `src/db/mod.rs`): rows of the endpoint+prefix with the given
status, strictly after `last_identifier` when given, `ORDER BY identifier
LIMIT 100`, projected to `(identifier, fingerprint)`. -/
def fetch_records_by_status (p : FetchRecordsParams) (db : Store) : List OaiRecordId :=
  ((((db.filter (fetchByStatusPred p)).mergeSort identLE).take 100).map
    fun r => OaiRecordId.mk r.identifier r.fingerprint)

/-- One header streamed by `list_identifiers` (`OaiRecordImport` in
`src/oai.rs`): `status` is `"deleted"` for deletion headers and defaults to
`"pending"` when the header carries no status. -/
structure OaiRecordImport where
  identifier : String
  datestamp : String
  status : String
  deriving Repr, DecidableEq

/-- Endpoint-scoped configuration of the harvester (`OaiConfig`). -/
structure OaiConfig where
  endpoint : String
  metadata_pfx : String

/-- Modelled from the spec: the freshly inserted row of the import upsert.
The `INSERT` column list (identity, datestamp, status, `message=''`,
`last_checked_at=NOW()`) is in `src/harvester/import.rs`; the remaining
columns take schema defaults whose migration files are not among the
sources, so they follow spec section 3 (empty metadata and messages,
`index_status='pending'`, zero attempt counter, null timestamps, version
counter starting at 1) and the fingerprint is an abstract pure function
`fpOf` of the identifier (spec I2/P7 pin down only its purity). -/
def insertedRecord (cfg : OaiConfig) (fpOf : String → String) (now : Nat)
    (h : OaiRecordImport) : OaiRecord :=
  { endpoint := cfg.endpoint
    metadata_pfx := cfg.metadata_pfx
    identifier := h.identifier
    datestamp := h.datestamp
    fingerprint := fpOf h.identifier
    status := h.status
    message := ""
    metadata := []
    index_status := "pending"
    index_message := ""
    index_attempts := 0
    last_checked_at := some now
    index_last_checked_at := none
    indexed_at := none
    purged_at := none
    version := 1 }

/-- The `DO UPDATE SET` arm of the import upsert
(`batch_upsert_records`, `src/harvester/import.rs`): copy datestamp and
status from the header, clear `message`, requeue the index lifecycle
(`index_status='pending'`, `index_message=''`, `purged_at=NULL`,
`index_last_checked_at=NULL`) iff the incoming status is `'deleted'`,
increment `version` and bump `last_checked_at`. -/
def upsertConflictUpdate (now : Nat) (h : OaiRecordImport) (r : OaiRecord) : OaiRecord :=
  { r with
    datestamp := h.datestamp
    status := h.status
    message := ""
    index_status := if h.status == "deleted" then "pending" else r.index_status
    index_message := if h.status == "deleted" then "" else r.index_message
    purged_at := if h.status == "deleted" then none else r.purged_at
    index_last_checked_at := if h.status == "deleted" then none else r.index_last_checked_at
    version := r.version + 1
    last_checked_at := some now }

/-- Guard of the `DO UPDATE` arm: `WHERE oai_records.status != 'failed'
AND oai_records.datestamp != EXCLUDED.datestamp`. -/
def upsertConflictPred (h : OaiRecordImport) (r : OaiRecord) : Bool :=
  r.status != "failed" && r.datestamp != h.datestamp

/-- Upsert of a single header of the batch: on an identity conflict the
guarded `DO UPDATE` arm runs (returning the resulting status when the row
was affected), otherwise the row is inserted (returning its status). -/
def upsertOne (cfg : OaiConfig) (fpOf : String → String) (now : Nat)
    (h : OaiRecordImport) (db : Store) : Store × List String :=
  if db.any (fun r => idMatch cfg.endpoint cfg.metadata_pfx h.identifier r) then
    ((db.map fun r =>
        if idMatch cfg.endpoint cfg.metadata_pfx h.identifier r && upsertConflictPred h r
        then upsertConflictUpdate now h r else r),
     (db.filter fun r =>
        idMatch cfg.endpoint cfg.metadata_pfx h.identifier r && upsertConflictPred h r).map
       (fun _ => h.status))
  else
    (db ++ [insertedRecord cfg fpOf now h], [h.status])

/-- Batch import upsert (`batch_upsert_records`, `src/harvester/import.rs`):
the multi-row `INSERT ... ON CONFLICT ... DO UPDATE ... RETURNING status`
applied to a batch of headers, returning the new store and the list of
statuses of the affected rows. -/
def batch_upsert_records (cfg : OaiConfig) (fpOf : String → String) (now : Nat)
    (records : List OaiRecordImport) (db : Store) : Store × List String :=
  records.foldl
    (fun acc h =>
      let step := upsertOne cfg fpOf now h acc.1
      (step.1, acc.2 ++ step.2))
    (db, [])

/-- Fixed-size chunking of the header stream (`BATCH_SIZE = 100` in
`src/harvester/import.rs`). -/
def chunksOf (n : Nat) (l : List α) : List (List α) :=
  match l, n with
  | [], _ => []
  | x :: xs, 0 => [x :: xs]
  | x :: xs, Nat.succ m =>
      ((x :: xs).take (Nat.succ m)) :: chunksOf (Nat.succ m) ((x :: xs).drop (Nat.succ m))
termination_by l.length
decreasing_by
  simp
  omega

/-- Import phase (`run`, `src/harvester/import.rs`): the streamed headers
are applied batch-wise (chunks of 100) through the batch upsert. -/
def run_import (cfg : OaiConfig) (fpOf : String → String) (now : Nat)
    (headers : List OaiRecordImport) (db : Store) : Store :=
  (chunksOf 100 headers).foldl
    (fun acc batch => (batch_upsert_records cfg fpOf now batch acc).1) db

/-- Parameters of the index-side success transitions
(`UpdateIndexStatusParams`, declared by the sources that consume
`src/db`'s indexer module). -/
structure UpdateIndexStatusParams where
  endpoint : String
  metadata_pfx : String
  identifier : String

/-- Parameters of the index-side failure transitions
(`UpdateIndexFailureParams`). -/
structure UpdateIndexFailureParams where
  endpoint : String
  metadata_pfx : String
  identifier : String
  message : String

/-- Precondition of the index transitions (spec section 4.1):
`status='parsed'` and `index_status IN ('pending','index_failed')`. -/
def indexTransitionPred (endpoint metadata_pfx identifier : String) (r : OaiRecord) : Bool :=
  idMatch endpoint metadata_pfx identifier r && r.status == "parsed" &&
    (r.index_status == "pending" || r.index_status == "index_failed")

/-- Precondition of the purge transitions (spec section 4.1):
`status='deleted'` and `index_status IN ('pending','purge_failed')`. -/
def purgeTransitionPred (endpoint metadata_pfx identifier : String) (r : OaiRecord) : Bool :=
  idMatch endpoint metadata_pfx identifier r && r.status == "deleted" &&
    (r.index_status == "pending" || r.index_status == "purge_failed")

/-- Modelled from the spec: `do_mark_index_success_query` lives in the
repository's `db` indexer module, which is not among the sources (only its
declarations, callers and tests are).  Spec section 4.1: index success is
`(status=parsed ∧ index_status ∈ {pending, index_failed}) →
index_status=indexed, index_message='', index_attempts=0, indexed_at=now`,
with `index_last_checked_at` tracking the index-side update. -/
def do_mark_index_success_query (now : Nat) (p : UpdateIndexStatusParams)
    (db : Store) : Store × Nat :=
  sqlUpdate
    (indexTransitionPred p.endpoint p.metadata_pfx p.identifier)
    (fun r => { r with
        index_status := "indexed"
        index_message := ""
        index_attempts := 0
        indexed_at := some now
        index_last_checked_at := some now })
    db

/-- Modelled from the spec: `do_mark_index_failure_query` is not among the
sources.  Spec section 4.1: index failure has the same precondition and
sets `index_status=index_failed`, `index_message=<msg>`,
`index_attempts += 1` (confirmed by the repository's integration tests). -/
def do_mark_index_failure_query (now : Nat) (p : UpdateIndexFailureParams)
    (db : Store) : Store × Nat :=
  sqlUpdate
    (indexTransitionPred p.endpoint p.metadata_pfx p.identifier)
    (fun r => { r with
        index_status := "index_failed"
        index_message := p.message
        index_attempts := r.index_attempts + 1
        index_last_checked_at := some now })
    db

/-- Modelled from the spec: `do_mark_purge_success_query` is not among the
sources.  Spec section 4.1: purge success is `(status=deleted ∧
index_status ∈ {pending, purge_failed}) → index_status=purged,
index_message='', index_attempts=0, purged_at=now`. -/
def do_mark_purge_success_query (now : Nat) (p : UpdateIndexStatusParams)
    (db : Store) : Store × Nat :=
  sqlUpdate
    (purgeTransitionPred p.endpoint p.metadata_pfx p.identifier)
    (fun r => { r with
        index_status := "purged"
        index_message := ""
        index_attempts := 0
        purged_at := some now
        index_last_checked_at := some now })
    db

/-- Modelled from the spec: `do_mark_purge_failure_query` is not among the
sources.  Spec section 4.1: purge failure has the purge precondition and
sets `index_status=purge_failed`, `index_message=<msg>`,
`index_attempts += 1`. -/
def do_mark_purge_failure_query (now : Nat) (p : UpdateIndexFailureParams)
    (db : Store) : Store × Nat :=
  sqlUpdate
    (purgeTransitionPred p.endpoint p.metadata_pfx p.identifier)
    (fun r => { r with
        index_status := "purge_failed"
        index_message := p.message
        index_attempts := r.index_attempts + 1
        index_last_checked_at := some now })
    db

/-- Parameters of the index-candidate selection queries
(`FetchIndexCandidatesParams`). -/
structure FetchIndexCandidatesParams where
  endpoint : String
  metadata_pfx : String
  oai_repository : String
  max_attempts : Option Int
  message_filter : Option String
  last_identifier : Option String

/-- Membership of the configured repository name in the stored metadata's
`repository` array (spec section 4.5.1). -/
def repositoryMatch (oai_repository : String) (r : OaiRecord) : Bool :=
  ((r.metadata.lookup "repository").getD []).contains oai_repository

/-- Modelled from the spec: `fetch_pending_records_for_indexing` is not
among the sources.  Spec section 4.2: `status=parsed ∧
index_status=pending ∧ metadata.repository ∋ oai_repository`, keyset
bounded by `last_identifier`, `ORDER BY identifier LIMIT 100`. -/
def fetch_pending_records_for_indexing (p : FetchIndexCandidatesParams)
    (db : Store) : List OaiRecordId :=
  ((((db.filter fun r =>
      r.endpoint == p.endpoint && r.metadata_pfx == p.metadata_pfx &&
      r.status == "parsed" && r.index_status == "pending" &&
      repositoryMatch p.oai_repository r &&
      (match p.last_identifier with
       | some last => decide (last < r.identifier)
       | none => true)).mergeSort identLE).take 100).map
    fun r => OaiRecordId.mk r.identifier r.fingerprint)

/-- Modelled from the spec: `fetch_pending_records_for_purging` is not
among the sources.  Spec section 4.2: as the indexing variant but with
`status=deleted`. -/
def fetch_pending_records_for_purging (p : FetchIndexCandidatesParams)
    (db : Store) : List OaiRecordId :=
  ((((db.filter fun r =>
      r.endpoint == p.endpoint && r.metadata_pfx == p.metadata_pfx &&
      r.status == "deleted" && r.index_status == "pending" &&
      repositoryMatch p.oai_repository r &&
      (match p.last_identifier with
       | some last => decide (last < r.identifier)
       | none => true)).mergeSort identLE).take 100).map
    fun r => OaiRecordId.mk r.identifier r.fingerprint)

/-- Head-and-tail message truncation (`truncate_middle`,
`src/indexer/mod.rs`), modelled at character level: Rust's
`char_indices().nth(·).unwrap()` calls are the partial steps, so the
result is `none` exactly when the Rust code would panic. -/
def truncate_middle (s : String) (head tail : Nat) : Option String :=
  let total := s.data.length
  if total ≤ head + tail then
    some s
  else
    match decide (head < total), decide (total - tail < total) with
    | true, true =>
        some (String.mk (s.data.take head ++
          ("\n... <" ++ toString (total - head - tail) ++ " chars omitted> ...\n").data ++
          s.data.drop (total - tail)))
    | _, _ => none

/-- Truncation as used by the worker loop and the indexer work functions:
`truncate_middle(e, 200, 200)`, which never panics (claim C9). -/
def truncMsg (s : String) : String :=
  (truncate_middle s 200 200).getD s

/-- Outcome of one `timeout(duration, client.get_record(args))` attempt in
`download_record` (`src/harvester/download.rs`): either the timeout
elapsed, or the client finished with `Result<Response, Error>` whose
payload carries the metadata blob when present. -/
inductive FetchOutcome where
  | timeout
  | done (result : Except String (Option String))
  deriving Repr

/-- Trace of the retry loop of `download_record`: number of `get_record`
calls, the back-off sleeps (in ms, in order), and the first non-timeout
outcome (`none` when the retry budget was exhausted by timeouts). -/
structure AttemptTrace where
  calls : Nat
  sleeps : List Nat
  result : Option (Except String (Option String))
  deriving Repr

/-- Retry loop of `download_record` (`src/harvester/download.rs`): attempt
`i` consults the oracle; a timeout with `attempts < max_retries` sleeps
`500 * 2^attempts-increment-minus-one` ms (i.e. `500 * 2^i` before attempt
`i+1`) and retries, a timeout with the budget exhausted gives up, and any
completed call (success or error) breaks the loop immediately. -/
def get_record_loop (oracle : Nat → FetchOutcome) (max_retries : Nat) (i : Nat) :
    AttemptTrace :=
  match oracle i with
  | FetchOutcome.done r => { calls := 1, sleeps := [], result := some r }
  | FetchOutcome.timeout =>
      if h : i < max_retries then
        let rest := get_record_loop oracle max_retries (i + 1)
        { calls := rest.calls + 1, sleeps := (500 * 2 ^ i) :: rest.sleeps,
          result := rest.result }
      else
        { calls := 1, sleeps := [], result := none }
termination_by max_retries - i

/-- Outcome of `write_metadata_to_file`. -/
inductive WriteOutcome where
  | ok
  | err (e : String)
  deriving Repr, DecidableEq

/-- Per-record result of the download worker (`RecordResult` in
`src/harvester/download.rs`). -/
inductive RecordResult where
  | Downloaded
  | Failed
  | FailedToMark
  deriving Repr, DecidableEq

/-- Failure path of the download worker (`mark_record_failed`): applies
the guarded `pending -> failed` transition; a zero-row result is only
logged and reported as `FailedToMark`. -/
def mark_record_failed (cfg : OaiConfig) (now : Nat) (record : OaiRecordId)
    (message : String) (db : Store) : Store × RecordResult :=
  let q := do_mark_download_failure_query now
    { endpoint := cfg.endpoint, metadata_pfx := cfg.metadata_pfx,
      identifier := record.identifier, message := message } db
  (q.1, if q.2 == 1 then RecordResult.Failed else RecordResult.FailedToMark)

/-- Success path of the download worker (`mark_record_available`): applies
the guarded `pending -> available` transition; a zero-row result is only
logged. -/
def mark_record_available (cfg : OaiConfig) (now : Nat) (record : OaiRecordId)
    (db : Store) : Store × RecordResult :=
  let q := do_mark_download_success_query now
    { endpoint := cfg.endpoint, metadata_pfx := cfg.metadata_pfx,
      identifier := record.identifier } db
  (q.1, if q.2 == 0 then RecordResult.FailedToMark else RecordResult.Downloaded)

/-- Per-record download work (`download_record`,
`src/harvester/download.rs`): run the retry loop, then on a payload write
the file and mark available (or mark failed on a write error); a missing
payload, a fetch error, or an exhausted retry budget marks the record
failed with the derived message. -/
def download_record (cfg : OaiConfig) (oai_timeout max_retries : Nat)
    (oracle : Nat → FetchOutcome) (write : WriteOutcome) (now : Nat)
    (record : OaiRecordId) (db : Store) : Store × RecordResult :=
  match (get_record_loop oracle max_retries 0).result with
  | none =>
      mark_record_failed cfg now record
        ("OAI get_record timed out after " ++ toString oai_timeout ++ "s") db
  | some (Except.error e) =>
      mark_record_failed cfg now record ("Failed to fetch OAI record: " ++ e) db
  | some (Except.ok none) =>
      mark_record_failed cfg now record "OAI response missing payload" db
  | some (Except.ok (some _)) =>
      match write with
      | WriteOutcome.err e =>
          mark_record_failed cfg now record ("Failed to write metadata file: " ++ e) db
      | WriteOutcome.ok => mark_record_available cfg now record db

/-- Per-record input of the metadata phase: what `File::open` plus
`extract_metadata` produce for the record's XML file. -/
inductive MetadataFileResult where
  | openError (e : String)
  | extracted (result : Except String MetadataJson)
  deriving Repr

/-- Batch body of the metadata phase (`run`, `src/harvester/metadata.rs`):
for each record, a failed `File::open` propagates with `?` (aborting the
sweep and leaving the remaining records untouched), an extractor error
applies `do_update_status_query` with `status='failed'`, and extractor
success applies `update_record_metadata`.  Returns the store, the count of
parsed records, and the aborting error if any. -/
def metadata_process_batch (cfg : OaiConfig) (now : Nat)
    (batch : List (OaiRecordId × MetadataFileResult)) (db : Store) :
    Store × Nat × Option String :=
  match batch with
  | [] => (db, 0, none)
  | (record, fr) :: rest =>
      match fr with
      | MetadataFileResult.openError e => (db, 0, some e)
      | MetadataFileResult.extracted (Except.ok md) =>
          let db := (update_record_metadata now cfg.endpoint cfg.metadata_pfx
            record.identifier md db).1
          let next := metadata_process_batch cfg now rest db
          (next.1, next.2.1 + 1, next.2.2)
      | MetadataFileResult.extracted (Except.error e) =>
          let db := (do_update_status_query now
            { endpoint := cfg.endpoint, metadata_pfx := cfg.metadata_pfx,
              identifier := record.identifier, status := "failed", message := e } db).1
          let next := metadata_process_batch cfg now rest db
          (next.1, next.2.1, next.2.2)

/-- Keyset-paginated batch trace of a phase sweep: the successive batches
returned by a bound fetch function while the sweep advances
`last_identifier` to the last record of each batch and the per-batch work
(`stepStore`) mutates the store.  A batch shorter than `BATCH_SIZE = 100`
ends the sweep, as in `run` (`src/harvester/download.rs`,
`src/harvester/metadata.rs`) and `process_records`
(`src/indexer/mod.rs`).  `fuel` bounds the iteration count. -/
def sweepBatches (fetchB : Option String → Store → List OaiRecordId)
    (stepStore : Store → List OaiRecordId → Store) (fuel : Nat)
    (last : Option String) (db : Store) : List (List OaiRecordId) :=
  match fuel with
  | 0 => []
  | Nat.succ fuel =>
      let batch := fetchB last db
      match batch.getLast? with
      | none => []
      | some lastRec =>
          batch ::
            (if batch.length < 100 then []
             else sweepBatches fetchB stepStore fuel (some lastRec.identifier)
               (stepStore db batch))

/-- Sequential model of the bounded-concurrency fan-out of
`process_records` (`src/indexer/mod.rs`): run every record's work function
(which may itself touch the store, as the ArcLight `index_record` does)
and collect the `(record, result)` pairs. -/
def fanOutWork (work : OaiRecordId → Store → Store × Except String Unit)
    (batch : List OaiRecordId) (db : Store) :
    Store × List (OaiRecordId × Except String Unit) :=
  batch.foldl
    (fun acc r =>
      let step := work r acc.1
      (step.1, acc.2 ++ [(r, step.2)]))
    (db, [])

/-- Result handling of `process_records` (`src/indexer/mod.rs`, the loop
over collected `(record, result)` pairs): `Ok` marks success (a zero-row
update is only logged — neither success nor failure), `Err` counts a
failure, truncates the message and applies the phase's mark-failure
query. -/
def handleResults (markS : OaiRecordId → Store → Store × Nat)
    (markF : OaiRecordId → String → Store → Store × Nat)
    (pairs : List (OaiRecordId × Except String Unit))
    (db : Store) (succeeded failed : Nat) : Store × Nat × Nat :=
  pairs.foldl
    (fun acc pair =>
      match pair.2 with
      | Except.ok _ =>
          let step := markS pair.1 acc.1
          (step.1, (if step.2 == 0 then acc.2.1 else acc.2.1 + 1), acc.2.2)
      | Except.error e =>
          let step := markF pair.1 (truncMsg e) acc.1
          (step.1, acc.2.1, acc.2.2 + 1))
    (db, succeeded, failed)

/-- Worker loop of the indexer phases (`process_records`,
`src/indexer/mod.rs`): fetch a batch, remember its last identifier, then
either preview (print intent, count the whole batch as succeeded, touch
nothing) or fan out the work and apply the success/failure transitions;
stop on an empty or short batch.  `fuel` bounds the iteration count. -/
def process_records (fetchB : Option String → Store → List OaiRecordId)
    (work : OaiRecordId → Store → Store × Except String Unit)
    (markS : OaiRecordId → Store → Store × Nat)
    (markF : OaiRecordId → String → Store → Store × Nat)
    (preview : Bool) (fuel : Nat) (last : Option String) (db : Store)
    (succeeded failed : Nat) : Store × Nat × Nat :=
  match fuel with
  | 0 => (db, succeeded, failed)
  | Nat.succ fuel =>
      let batch := fetchB last db
      match batch.getLast? with
      | none => (db, succeeded, failed)
      | some lastRec =>
          if preview then
            let succeeded := succeeded + batch.length
            if batch.length < 100 then (db, succeeded, failed)
            else process_records fetchB work markS markF preview fuel
              (some lastRec.identifier) db succeeded failed
          else
            let fan := fanOutWork work batch db
            let handled := handleResults markS markF fan.2 fan.1 succeeded failed
            if batch.length < 100 then handled
            else process_records fetchB work markS markF preview fuel
              (some lastRec.identifier) handled.1 handled.2.1 handled.2.2

/-- Outcome of `run_traject` for one record (`src/indexer/arclight/mod.rs`):
exit status 0, a non-zero exit with captured stderr, or an error from the
spawn/timeout path (`Err`, including the kill-on-timeout message). -/
inductive TrajectOutcome where
  | exitSuccess
  | exitFailure (stderr : String)
  | runError (e : String)
  deriving Repr

/-- Index work function of the ArcLight indexer (`index_record`,
`src/indexer/arclight/mod.rs`): in preview print and return `Ok`;
otherwise run traject and — on a run error or a non-zero exit — apply
`do_mark_index_failure_query` ITSELF with the truncated message before
returning `Err`; on exit 0 apply `do_mark_index_success_query` and return
`Ok`. -/
def arclight_index_record (endpoint metadata_pfx : String) (now : Nat)
    (preview : Bool) (traject : TrajectOutcome) (record : OaiRecordId)
    (db : Store) : Store × Except String Unit :=
  if preview then (db, Except.ok ())
  else
    match traject with
    | TrajectOutcome.runError e =>
        let message := truncMsg e
        ((do_mark_index_failure_query now
            { endpoint := endpoint, metadata_pfx := metadata_pfx,
              identifier := record.identifier, message := message } db).1,
         Except.error message)
    | TrajectOutcome.exitSuccess =>
        ((do_mark_index_success_query now
            { endpoint := endpoint, metadata_pfx := metadata_pfx,
              identifier := record.identifier } db).1,
         Except.ok ())
    | TrajectOutcome.exitFailure stderr =>
        let stderr := truncMsg stderr
        ((do_mark_index_failure_query now
            { endpoint := endpoint, metadata_pfx := metadata_pfx,
              identifier := record.identifier, message := stderr } db).1,
         Except.error ("traject failed: " ++ stderr))

/-! Helper lemmas about the SQL update semantics. -/

theorem sqlUpdate_length (pre : OaiRecord → Bool) (f : OaiRecord → OaiRecord)
    (db : Store) : (sqlUpdate pre f db).1.length = db.length := by
  simp [sqlUpdate]

theorem sqlUpdate_getElem (pre : OaiRecord → Bool) (f : OaiRecord → OaiRecord)
    (db : Store) (i : Nat) (hi : i < db.length) :
    ∃ hj : i < (sqlUpdate pre f db).1.length,
      (sqlUpdate pre f db).1[i] = if pre db[i] then f db[i] else db[i] := by
  refine ⟨by simpa [sqlUpdate] using hi, ?_⟩
  simp [sqlUpdate]

theorem sqlUpdate_preserve (pre : OaiRecord → Bool) (f : OaiRecord → OaiRecord)
    (db : Store) (i : Nat) (hi : i < db.length) (h : pre db[i] = false) :
    ∃ hj : i < (sqlUpdate pre f db).1.length,
      (sqlUpdate pre f db).1[i] = db[i] := by
  obtain ⟨hj, he⟩ := sqlUpdate_getElem pre f db i hi
  exact ⟨hj, by simp [he, h]⟩

theorem sqlUpdate_zero (pre : OaiRecord → Bool) (f : OaiRecord → OaiRecord)
    (db : Store) (h : ∀ r ∈ db, pre r = false) : (sqlUpdate pre f db).2 = 0 := by
  simp only [sqlUpdate, List.countP_eq_zero]
  intro r hr
  simpa using h r hr

/-- C2: for every row on which the metadata-success transition fires
(identity match and precondition `status='available'`), the row afterwards
has `status='parsed'`, the extracted metadata stored, `message=''`,
`index_status='pending'`, `index_message=''`, `index_attempts=0`,
`indexed_at=NULL` and `purged_at=NULL`. -/
theorem metadata_success_resets_index_lifecycle (now : Nat)
    (p : RecordParsedParams) (db : Store) (i : Nat) (hi : i < db.length)
    (hid : idMatch p.endpoint p.metadata_pfx p.identifier db[i] = true)
    (hst : db[i].status = "available") :
    ∃ hj : i < (do_mark_metadata_success_query now p db).1.length,
      ((do_mark_metadata_success_query now p db).1[i].status = "parsed" ∧
       (do_mark_metadata_success_query now p db).1[i].metadata = p.metadata ∧
       (do_mark_metadata_success_query now p db).1[i].message = "" ∧
       (do_mark_metadata_success_query now p db).1[i].index_status = "pending" ∧
       (do_mark_metadata_success_query now p db).1[i].index_message = "" ∧
       (do_mark_metadata_success_query now p db).1[i].index_attempts = 0 ∧
       (do_mark_metadata_success_query now p db).1[i].indexed_at = none ∧
       (do_mark_metadata_success_query now p db).1[i].purged_at = none) := by
  obtain ⟨hj, he⟩ := sqlUpdate_getElem
    (fun r => idMatch p.endpoint p.metadata_pfx p.identifier r && r.status == "available")
    _ db i hi
  refine ⟨hj, ?_⟩
  simp only [do_mark_metadata_success_query]
  simp [he, hid, hst]

/-- Sample row used by witnesses: an `available` record with stale
index-lifecycle residue. -/
def sampleAvailableRow : OaiRecord :=
  { endpoint := "E", metadata_pfx := "oai_ead", identifier := "id1",
    datestamp := "2026-01-01", fingerprint := "abcd", status := "available",
    message := "old error", metadata := [], index_status := "indexed",
    index_message := "stale", index_attempts := 2, last_checked_at := some 1,
    index_last_checked_at := some 1, indexed_at := some 1, purged_at := some 1,
    version := 1 }

/-- Witness for C2 at a concrete row. -/
theorem metadata_success_resets_index_lifecycle_witness :
    ∃ hj : 0 < (do_mark_metadata_success_query 5
        { endpoint := "E", metadata_pfx := "oai_ead", identifier := "id1",
          metadata := [("title", ["t"])] } [sampleAvailableRow]).1.length,
      ((do_mark_metadata_success_query 5
        { endpoint := "E", metadata_pfx := "oai_ead", identifier := "id1",
          metadata := [("title", ["t"])] } [sampleAvailableRow]).1[0].status = "parsed" ∧
       (do_mark_metadata_success_query 5
        { endpoint := "E", metadata_pfx := "oai_ead", identifier := "id1",
          metadata := [("title", ["t"])] } [sampleAvailableRow]).1[0].metadata =
          ({ endpoint := "E", metadata_pfx := "oai_ead", identifier := "id1",
             metadata := [("title", ["t"])] } : RecordParsedParams).metadata ∧
       (do_mark_metadata_success_query 5
        { endpoint := "E", metadata_pfx := "oai_ead", identifier := "id1",
          metadata := [("title", ["t"])] } [sampleAvailableRow]).1[0].message = "" ∧
       (do_mark_metadata_success_query 5
        { endpoint := "E", metadata_pfx := "oai_ead", identifier := "id1",
          metadata := [("title", ["t"])] } [sampleAvailableRow]).1[0].index_status = "pending" ∧
       (do_mark_metadata_success_query 5
        { endpoint := "E", metadata_pfx := "oai_ead", identifier := "id1",
          metadata := [("title", ["t"])] } [sampleAvailableRow]).1[0].index_message = "" ∧
       (do_mark_metadata_success_query 5
        { endpoint := "E", metadata_pfx := "oai_ead", identifier := "id1",
          metadata := [("title", ["t"])] } [sampleAvailableRow]).1[0].index_attempts = 0 ∧
       (do_mark_metadata_success_query 5
        { endpoint := "E", metadata_pfx := "oai_ead", identifier := "id1",
          metadata := [("title", ["t"])] } [sampleAvailableRow]).1[0].indexed_at = none ∧
       (do_mark_metadata_success_query 5
        { endpoint := "E", metadata_pfx := "oai_ead", identifier := "id1",
          metadata := [("title", ["t"])] } [sampleAvailableRow]).1[0].purged_at = none) :=
  metadata_success_resets_index_lifecycle 5 _ [sampleAvailableRow] 0 (by decide)
    (by decide) (by decide)

/-- Sample row in state `parsed`, away from the metadata transitions'
`available` precondition. -/
def sampleParsedRow : OaiRecord :=
  { endpoint := "E", metadata_pfx := "oai_ead", identifier := "id1",
    datestamp := "2026-01-01", fingerprint := "abcd", status := "parsed",
    message := "", metadata := [("title", ["t"])], index_status := "pending",
    index_message := "", index_attempts := 0, last_checked_at := some 1,
    index_last_checked_at := none, indexed_at := none, purged_at := none,
    version := 1 }

/-- C3 counterexample: the metadata phase applies its `available -> failed`
transition through `do_update_status_query` (`src/db.rs`), whose `WHERE`
clause carries no source state: a row whose status is `parsed` — not the
transition's `available` precondition — is still updated (one row
affected, status overwritten), refuting the claim that such a row is left
completely unchanged with zero rows affected. -/
theorem unguarded_status_update_hits_mismatched_row :
    sampleParsedRow.status ≠ "available" ∧
    (do_update_status_query 9
      { endpoint := "E", metadata_pfx := "oai_ead", identifier := "id1",
        status := "failed", message := "boom" } [sampleParsedRow]).2 = 1 ∧
    (do_update_status_query 9
      { endpoint := "E", metadata_pfx := "oai_ead", identifier := "id1",
        status := "failed", message := "boom" } [sampleParsedRow]).1 =
      [{ sampleParsedRow with
          status := "failed", message := "boom",
          last_checked_at := some 9 }] ∧
    ({ sampleParsedRow with
        status := "failed", message := "boom",
        last_checked_at := some 9 } : OaiRecord) ≠ sampleParsedRow := by
  refine ⟨by decide, by decide, ?_, by decide⟩
  decide

/-- C3 amended: the download transitions, the `db/harvester.rs` metadata
transitions and the index/purge transitions all assert the expected source
state in their `WHERE` clause — a row in any other state is left unchanged
and contributes nothing to `rows_affected` — while the metadata phase as
wired (`do_update_status_query`, `update_record_metadata`) matches on the
identity alone. -/
theorem guarded_transitions_skip_mismatched_rows (now : Nat) (db : Store) :
    (∀ (p : RecordTransitionParams) (i : Nat) (hi : i < db.length),
        db[i].status ≠ "pending" →
        ∃ hj : i < (do_mark_download_success_query now p db).1.length,
          (do_mark_download_success_query now p db).1[i] = db[i]) ∧
    (∀ (p : RecordFailureParams) (i : Nat) (hi : i < db.length),
        db[i].status ≠ "pending" →
        ∃ hj : i < (do_mark_download_failure_query now p db).1.length,
          (do_mark_download_failure_query now p db).1[i] = db[i]) ∧
    (∀ (p : RecordFailureParams) (i : Nat) (hi : i < db.length),
        db[i].status ≠ "available" →
        ∃ hj : i < (do_mark_metadata_failure_query now p db).1.length,
          (do_mark_metadata_failure_query now p db).1[i] = db[i]) ∧
    (∀ (p : RecordParsedParams) (i : Nat) (hi : i < db.length),
        db[i].status ≠ "available" →
        ∃ hj : i < (do_mark_metadata_success_query now p db).1.length,
          (do_mark_metadata_success_query now p db).1[i] = db[i]) ∧
    (∀ (p : UpdateIndexStatusParams) (i : Nat) (hi : i < db.length),
        db[i].status ≠ "parsed" ∨
          (db[i].index_status ≠ "pending" ∧ db[i].index_status ≠ "index_failed") →
        ∃ hj : i < (do_mark_index_success_query now p db).1.length,
          (do_mark_index_success_query now p db).1[i] = db[i]) ∧
    (∀ (p : UpdateIndexFailureParams) (i : Nat) (hi : i < db.length),
        db[i].status ≠ "parsed" ∨
          (db[i].index_status ≠ "pending" ∧ db[i].index_status ≠ "index_failed") →
        ∃ hj : i < (do_mark_index_failure_query now p db).1.length,
          (do_mark_index_failure_query now p db).1[i] = db[i]) ∧
    (∀ (p : UpdateIndexStatusParams) (i : Nat) (hi : i < db.length),
        db[i].status ≠ "deleted" ∨
          (db[i].index_status ≠ "pending" ∧ db[i].index_status ≠ "purge_failed") →
        ∃ hj : i < (do_mark_purge_success_query now p db).1.length,
          (do_mark_purge_success_query now p db).1[i] = db[i]) ∧
    (∀ (p : UpdateIndexFailureParams) (i : Nat) (hi : i < db.length),
        db[i].status ≠ "deleted" ∨
          (db[i].index_status ≠ "pending" ∧ db[i].index_status ≠ "purge_failed") →
        ∃ hj : i < (do_mark_purge_failure_query now p db).1.length,
          (do_mark_purge_failure_query now p db).1[i] = db[i]) ∧
    (∀ (p : RecordTransitionParams),
        (∀ r ∈ db, r.status ≠ "pending") →
        (do_mark_download_success_query now p db).2 = 0) ∧
    (∀ (p : RecordFailureParams),
        (∀ r ∈ db, r.status ≠ "available") →
        (do_mark_metadata_failure_query now p db).2 = 0) := by
  refine ⟨?_, ?_, ?_, ?_, ?_, ?_, ?_, ?_, ?_, ?_⟩
  · intro p i hi h
    exact sqlUpdate_preserve _ _ db i hi (by simp [h])
  · intro p i hi h
    exact sqlUpdate_preserve _ _ db i hi (by simp [h])
  · intro p i hi h
    exact sqlUpdate_preserve _ _ db i hi (by simp [h])
  · intro p i hi h
    exact sqlUpdate_preserve _ _ db i hi (by simp [h])
  · intro p i hi h
    refine sqlUpdate_preserve _ _ db i hi ?_
    rcases h with h | ⟨h1, h2⟩
    · simp [indexTransitionPred, h]
    · simp [indexTransitionPred, h1, h2]
  · intro p i hi h
    refine sqlUpdate_preserve _ _ db i hi ?_
    rcases h with h | ⟨h1, h2⟩
    · simp [indexTransitionPred, h]
    · simp [indexTransitionPred, h1, h2]
  · intro p i hi h
    refine sqlUpdate_preserve _ _ db i hi ?_
    rcases h with h | ⟨h1, h2⟩
    · simp [purgeTransitionPred, h]
    · simp [purgeTransitionPred, h1, h2]
  · intro p i hi h
    refine sqlUpdate_preserve _ _ db i hi ?_
    rcases h with h | ⟨h1, h2⟩
    · simp [purgeTransitionPred, h]
    · simp [purgeTransitionPred, h1, h2]
  · intro p h
    exact sqlUpdate_zero _ _ db (fun r hr => by simp [h r hr])
  · intro p h
    exact sqlUpdate_zero _ _ db (fun r hr => by simp [h r hr])

/-- Witness for the amended C3 at a concrete row: the guarded download
success transition leaves a `parsed` row untouched. -/
theorem guarded_transitions_skip_mismatched_rows_witness :
    ∃ hj : 0 < (do_mark_download_success_query 9
        { endpoint := "E", metadata_pfx := "oai_ead", identifier := "id1" }
        [sampleParsedRow]).1.length,
      (do_mark_download_success_query 9
        { endpoint := "E", metadata_pfx := "oai_ead", identifier := "id1" }
        [sampleParsedRow]).1[0] = sampleParsedRow :=
  (guarded_transitions_skip_mismatched_rows 9 [sampleParsedRow]).1
    { endpoint := "E", metadata_pfx := "oai_ead", identifier := "id1" }
    0 (by decide) (by decide)

/-- Concrete pre-state for the deleted-import scenario: a `parsed` row that
was indexed once and has accumulated failed attempts. -/
def deletedImportRow : OaiRecord :=
  { endpoint := "E", metadata_pfx := "oai_ead", identifier := "id3",
    datestamp := "2026-01-01", fingerprint := "abcd", status := "parsed",
    message := "", metadata := [("title", ["t"])], index_status := "indexed",
    index_message := "", index_attempts := 3, last_checked_at := some 1,
    index_last_checked_at := some 2, indexed_at := some 7, purged_at := none,
    version := 1 }

/-- Store after importing a changed `deleted` header over
`deletedImportRow`. -/
def deletedImportResult : Store :=
  (batch_upsert_records { endpoint := "E", metadata_pfx := "oai_ead" }
    (fun _ => "abcd") 9
    [{ identifier := "id3", datestamp := "2026-02-10", status := "deleted" }]
    [deletedImportRow]).1

/-- C1 counterexample: the import upsert transitions the row to `deleted`
and requeues `index_status`/`index_message`/`purged_at`, but — against the
claim — `index_attempts` stays `3` (not `0`) and `indexed_at` stays set
(not `NULL`): the `DO UPDATE` arm in `src/harvester/import.rs` never
touches those two columns. -/
theorem import_deleted_keeps_attempts_and_indexed_at :
    deletedImportResult =
      [{ deletedImportRow with
          datestamp := "2026-02-10", status := "deleted", message := "",
          index_status := "pending", index_message := "", purged_at := none,
          index_last_checked_at := none, version := 2,
          last_checked_at := some 9 }] ∧
    deletedImportRow.index_attempts = 3 ∧
    deletedImportRow.indexed_at = some 7 ∧
    deletedImportRow.status ≠ "failed" ∧
    deletedImportRow.datestamp ≠ "2026-02-10" := by
  refine ⟨?_, by decide, by decide, by decide, by decide⟩
  decide

/-- C1 amended: for every existing row that the import batch upsert
transitions to `deleted` (identity match, changed datestamp, previous
status not `failed`), the row afterwards has `index_status='pending'`,
`index_message=''`, `purged_at=NULL` and `index_last_checked_at=NULL`,
while `index_attempts` and `indexed_at` keep their previous values (and
`version` is incremented). -/
theorem import_deleted_requeues_index_lifecycle (cfg : OaiConfig)
    (fpOf : String → String) (now : Nat) (h : OaiRecordImport) (db : Store)
    (i : Nat) (hi : i < db.length)
    (hidm : idMatch cfg.endpoint cfg.metadata_pfx h.identifier db[i] = true)
    (hfail : db[i].status ≠ "failed") (hds : db[i].datestamp ≠ h.datestamp)
    (hdel : h.status = "deleted") :
    ∃ hj : i < (batch_upsert_records cfg fpOf now [h] db).1.length,
      ((batch_upsert_records cfg fpOf now [h] db).1[i].status = "deleted" ∧
       (batch_upsert_records cfg fpOf now [h] db).1[i].datestamp = h.datestamp ∧
       (batch_upsert_records cfg fpOf now [h] db).1[i].index_status = "pending" ∧
       (batch_upsert_records cfg fpOf now [h] db).1[i].index_message = "" ∧
       (batch_upsert_records cfg fpOf now [h] db).1[i].purged_at = none ∧
       (batch_upsert_records cfg fpOf now [h] db).1[i].index_last_checked_at = none ∧
       (batch_upsert_records cfg fpOf now [h] db).1[i].index_attempts =
         db[i].index_attempts ∧
       (batch_upsert_records cfg fpOf now [h] db).1[i].indexed_at = db[i].indexed_at ∧
       (batch_upsert_records cfg fpOf now [h] db).1[i].version = db[i].version + 1) := by
  have hb : batch_upsert_records cfg fpOf now [h] db =
      ((upsertOne cfg fpOf now h db).1, [] ++ (upsertOne cfg fpOf now h db).2) := by
    simp [batch_upsert_records]
  have hany : db.any (fun r => idMatch cfg.endpoint cfg.metadata_pfx h.identifier r) = true :=
    List.any_eq_true.mpr ⟨db[i], List.getElem_mem hi, hidm⟩
  have hcond : (idMatch cfg.endpoint cfg.metadata_pfx h.identifier db[i] &&
      upsertConflictPred h db[i]) = true := by
    simp [hidm, upsertConflictPred, hfail, hds]
  have hlen : (batch_upsert_records cfg fpOf now [h] db).1.length = db.length := by
    rw [hb]
    simp [upsertOne, hany]
  refine ⟨by rw [hlen]; exact hi, ?_⟩
  have hget : (batch_upsert_records cfg fpOf now [h] db).1[i] =
      upsertConflictUpdate now h db[i] := by
    have : (batch_upsert_records cfg fpOf now [h] db).1 =
        db.map (fun r =>
          if idMatch cfg.endpoint cfg.metadata_pfx h.identifier r && upsertConflictPred h r
          then upsertConflictUpdate now h r else r) := by
      rw [hb]
      simp [upsertOne, hany]
    have hpred : upsertConflictPred h db[i] = true := by
      simp [upsertConflictPred, hfail, hds]
    simp [this, hidm, hpred]
  rw [hget]
  simp [upsertConflictUpdate, hdel]

/-- Witness for the amended C1 at the concrete deleted-import scenario. -/
theorem import_deleted_requeues_index_lifecycle_witness :
    ∃ hj : 0 < (batch_upsert_records { endpoint := "E", metadata_pfx := "oai_ead" }
        (fun _ => "abcd") 9
        [{ identifier := "id3", datestamp := "2026-02-10", status := "deleted" }]
        [deletedImportRow]).1.length,
      ((batch_upsert_records { endpoint := "E", metadata_pfx := "oai_ead" }
        (fun _ => "abcd") 9
        [{ identifier := "id3", datestamp := "2026-02-10", status := "deleted" }]
        [deletedImportRow]).1[0].status = "deleted" ∧
       (batch_upsert_records { endpoint := "E", metadata_pfx := "oai_ead" }
        (fun _ => "abcd") 9
        [{ identifier := "id3", datestamp := "2026-02-10", status := "deleted" }]
        [deletedImportRow]).1[0].datestamp =
         ({ identifier := "id3", datestamp := "2026-02-10", status := "deleted" } :
           OaiRecordImport).datestamp ∧
       (batch_upsert_records { endpoint := "E", metadata_pfx := "oai_ead" }
        (fun _ => "abcd") 9
        [{ identifier := "id3", datestamp := "2026-02-10", status := "deleted" }]
        [deletedImportRow]).1[0].index_status = "pending" ∧
       (batch_upsert_records { endpoint := "E", metadata_pfx := "oai_ead" }
        (fun _ => "abcd") 9
        [{ identifier := "id3", datestamp := "2026-02-10", status := "deleted" }]
        [deletedImportRow]).1[0].index_message = "" ∧
       (batch_upsert_records { endpoint := "E", metadata_pfx := "oai_ead" }
        (fun _ => "abcd") 9
        [{ identifier := "id3", datestamp := "2026-02-10", status := "deleted" }]
        [deletedImportRow]).1[0].purged_at = none ∧
       (batch_upsert_records { endpoint := "E", metadata_pfx := "oai_ead" }
        (fun _ => "abcd") 9
        [{ identifier := "id3", datestamp := "2026-02-10", status := "deleted" }]
        [deletedImportRow]).1[0].index_last_checked_at = none ∧
       (batch_upsert_records { endpoint := "E", metadata_pfx := "oai_ead" }
        (fun _ => "abcd") 9
        [{ identifier := "id3", datestamp := "2026-02-10", status := "deleted" }]
        [deletedImportRow]).1[0].index_attempts = [deletedImportRow][0].index_attempts ∧
       (batch_upsert_records { endpoint := "E", metadata_pfx := "oai_ead" }
        (fun _ => "abcd") 9
        [{ identifier := "id3", datestamp := "2026-02-10", status := "deleted" }]
        [deletedImportRow]).1[0].indexed_at = [deletedImportRow][0].indexed_at ∧
       (batch_upsert_records { endpoint := "E", metadata_pfx := "oai_ead" }
        (fun _ => "abcd") 9
        [{ identifier := "id3", datestamp := "2026-02-10", status := "deleted" }]
        [deletedImportRow]).1[0].version = [deletedImportRow][0].version + 1) :=
  import_deleted_requeues_index_lifecycle { endpoint := "E", metadata_pfx := "oai_ead" }
    (fun _ => "abcd") 9
    { identifier := "id3", datestamp := "2026-02-10", status := "deleted" }
    [deletedImportRow] 0 (by decide) (by decide) (by decide) (by decide) (by decide)

/-- C9: `truncate_middle(s, 200, 200)` never panics (both `unwrap`s
succeed, so the model is always `some`), returns `s` unchanged when `s`
has at most 400 characters, and otherwise returns a string that begins
with the first 200 characters of `s`, ends with the last 200 characters of
`s`, and carries the omitted-character count in between. -/
theorem truncate_middle_never_panics_and_keeps_ends (s : String) :
    (truncate_middle s 200 200).isSome = true ∧
    (s.data.length ≤ 400 → truncate_middle s 200 200 = some s) ∧
    (∀ t : String, 400 < s.data.length → truncate_middle s 200 200 = some t →
      t.data.take 200 = s.data.take 200 ∧
      t.data.drop (t.data.length - 200) = s.data.drop (s.data.length - 200) ∧
      t.data = s.data.take 200 ++
        ("\n... <" ++ toString (s.data.length - 400) ++ " chars omitted> ...\n").data ++
        s.data.drop (s.data.length - 200)) := by
  by_cases hle : s.data.length ≤ 400
  · have heq : truncate_middle s 200 200 = some s := by
      simp only [truncate_middle]
      rw [if_pos (show s.data.length ≤ 200 + 200 by omega)]
    refine ⟨by simp [heq], fun _ => heq, fun t h400 _ => absurd h400 (by omega)⟩
  · have hgt : 400 < s.data.length := by omega
    have d1 : decide (200 < s.data.length) = true := decide_eq_true (by omega)
    have d2 : decide (s.data.length - 200 < s.data.length) = true :=
      decide_eq_true (by omega)
    have heq : truncate_middle s 200 200 =
        some (String.mk (s.data.take 200 ++
          ("\n... <" ++ toString (s.data.length - 200 - 200) ++
            " chars omitted> ...\n").data ++
          s.data.drop (s.data.length - 200))) := by
      simp only [truncate_middle]
      rw [if_neg (by omega), d1, d2]
    refine ⟨by simp [heq], fun h => absurd h (by omega), fun t h400 ht => ?_⟩
    rw [heq] at ht
    have htd : t.data = s.data.take 200 ++
        ("\n... <" ++ toString (s.data.length - 200 - 200) ++
          " chars omitted> ...\n").data ++
        s.data.drop (s.data.length - 200) := by
      have := Option.some.inj ht
      rw [← this]
    have h200 : (s.data.take 200).length = 200 := by
      rw [List.length_take]
      omega
    have hdroplen : (s.data.drop (s.data.length - 200)).length = 200 := by
      rw [List.length_drop]
      omega
    have hsub : s.data.length - 200 - 200 = s.data.length - 400 := by omega
    refine ⟨?_, ?_, ?_⟩
    · rw [htd, List.append_assoc]
      exact List.take_left' h200
    · rw [htd]
      refine List.drop_left' ?_
      simp only [List.length_append, hdroplen]
      omega
    · rw [htd, hsub]

/-- Sample long input: 401 copies of `a`. -/
def longSample : String := String.mk (List.replicate 401 'a')

/-- Expected truncation of `longSample`. -/
def longTrunc : String :=
  String.mk (List.replicate 200 'a' ++ ("\n... <1 chars omitted> ...\n").data ++
    List.replicate 200 'a')

set_option maxRecDepth 40000 in
/-- Witness for C9: the short-string branch at `"abc"` and the truncation
branch at a 401-character string. -/
theorem truncate_middle_never_panics_and_keeps_ends_witness :
    truncate_middle "abc" 200 200 = some "abc" ∧
    (longTrunc.data.take 200 = longSample.data.take 200 ∧
     longTrunc.data.drop (longTrunc.data.length - 200) =
       longSample.data.drop (longSample.data.length - 200) ∧
     longTrunc.data = longSample.data.take 200 ++
       ("\n... <" ++ toString (longSample.data.length - 400) ++
         " chars omitted> ...\n").data ++
       longSample.data.drop (longSample.data.length - 200)) :=
  ⟨(truncate_middle_never_panics_and_keeps_ends "abc").2.1 (by decide),
   (truncate_middle_never_panics_and_keeps_ends longSample).2.2 longTrunc
     (by decide) (by decide)⟩

theorem upsertOne_fst_preserves_failed (cfg : OaiConfig) (fpOf : String → String)
    (now : Nat) (h : OaiRecordImport) (db : Store) (i : Nat) (hi : i < db.length)
    (hf : db[i].status = "failed") :
    db.length ≤ (upsertOne cfg fpOf now h db).1.length ∧
    ∀ hj : i < (upsertOne cfg fpOf now h db).1.length,
      (upsertOne cfg fpOf now h db).1[i] = db[i] := by
  by_cases hany : db.any (fun r => idMatch cfg.endpoint cfg.metadata_pfx h.identifier r) = true
  · have hS : (upsertOne cfg fpOf now h db).1 = db.map (fun r =>
        if idMatch cfg.endpoint cfg.metadata_pfx h.identifier r && upsertConflictPred h r
        then upsertConflictUpdate now h r else r) := by
      simp [upsertOne, hany]
    constructor
    · rw [hS]
      simp
    · intro hj
      have hpred : upsertConflictPred h db[i] = false := by
        simp [upsertConflictPred, hf]
      simp [hS, hpred]
  · have hS : (upsertOne cfg fpOf now h db).1 = db ++ [insertedRecord cfg fpOf now h] := by
      simp only [upsertOne]
      rw [if_neg hany]
    constructor
    · rw [hS]
      simp
    · intro hj
      simp only [hS]
      exact List.getElem_append_left hi

theorem headers_fold_preserves_failed (cfg : OaiConfig) (fpOf : String → String)
    (now : Nat) (hs : List OaiRecordImport) (db : Store) (i : Nat)
    (hi : i < db.length) (hf : db[i].status = "failed") :
    db.length ≤ (hs.foldl (fun s h => (upsertOne cfg fpOf now h s).1) db).length ∧
    ∀ hj : i < (hs.foldl (fun s h => (upsertOne cfg fpOf now h s).1) db).length,
      (hs.foldl (fun s h => (upsertOne cfg fpOf now h s).1) db)[i] = db[i] := by
  induction hs generalizing db with
  | nil => exact ⟨Nat.le_refl _, fun hj => rfl⟩
  | cons h t ih =>
      obtain ⟨hle, hpres⟩ := upsertOne_fst_preserves_failed cfg fpOf now h db i hi hf
      have hi1 : i < (upsertOne cfg fpOf now h db).1.length := Nat.lt_of_lt_of_le hi hle
      have heq1 : (upsertOne cfg fpOf now h db).1[i] = db[i] := hpres hi1
      obtain ⟨hle2, hpres2⟩ := ih (upsertOne cfg fpOf now h db).1 hi1 (by rw [heq1]; exact hf)
      refine ⟨Nat.le_trans hle (by simpa using hle2), ?_⟩
      intro hj
      have := hpres2 (by simpa using hj)
      simpa [heq1] using this

theorem batch_upsert_records_fst (cfg : OaiConfig) (fpOf : String → String)
    (now : Nat) (records : List OaiRecordImport) (db : Store) :
    (batch_upsert_records cfg fpOf now records db).1 =
      records.foldl (fun s h => (upsertOne cfg fpOf now h s).1) db := by
  suffices hgen : ∀ (acc : List String),
      (records.foldl
        (fun acc h =>
          let step := upsertOne cfg fpOf now h acc.1
          (step.1, acc.2 ++ step.2)) (db, acc)).1 =
      records.foldl (fun s h => (upsertOne cfg fpOf now h s).1) db by
    exact hgen []
  induction records generalizing db with
  | nil => intro acc; rfl
  | cons h t ih =>
      intro acc
      simpa using ih (upsertOne cfg fpOf now h db).1 _

/-- C5: a row whose status is `failed` before an import is bit-for-bit
unchanged after the import — in particular its `status`, `datestamp` and
`version` are identical — for every sequence of OAI headers the import
streams (the `DO UPDATE` arm of the upsert excludes `status='failed'`
rows, and inserts only append). -/
theorem import_keeps_failed_rows_unchanged (cfg : OaiConfig)
    (fpOf : String → String) (now : Nat) (headers : List OaiRecordImport)
    (db : Store) (i : Nat) (hi : i < db.length)
    (hf : db[i].status = "failed") :
    ∃ hj : i < (run_import cfg fpOf now headers db).length,
      (run_import cfg fpOf now headers db)[i] = db[i] := by
  suffices hgen : ∀ (bs : List (List OaiRecordImport)) (s : Store)
      (hi : i < s.length) (hf : s[i].status = "failed"),
      s.length ≤ (bs.foldl (fun acc batch =>
        (batch_upsert_records cfg fpOf now batch acc).1) s).length ∧
      ∀ hj : i < (bs.foldl (fun acc batch =>
        (batch_upsert_records cfg fpOf now batch acc).1) s).length,
        (bs.foldl (fun acc batch =>
          (batch_upsert_records cfg fpOf now batch acc).1) s)[i] = s[i] by
    obtain ⟨hle, hpres⟩ := hgen (chunksOf 100 headers) db hi hf
    have hj : i < (run_import cfg fpOf now headers db).length := by
      simpa [run_import] using Nat.lt_of_lt_of_le hi hle
    exact ⟨hj, by simpa [run_import] using hpres (by simpa [run_import] using hj)⟩
  intro bs
  induction bs with
  | nil => intro s hi hf; exact ⟨Nat.le_refl _, fun hj => rfl⟩
  | cons b t ih =>
      intro s hi hf
      have hb := batch_upsert_records_fst cfg fpOf now b s
      obtain ⟨hle, hpres⟩ := headers_fold_preserves_failed cfg fpOf now b s i hi hf
      have hi1 : i < (batch_upsert_records cfg fpOf now b s).1.length := by
        rw [hb]; exact Nat.lt_of_lt_of_le hi hle
      have heq1 : (batch_upsert_records cfg fpOf now b s).1[i] = s[i] := by
        rw [List.getElem_of_eq hb hi1]
        exact hpres _
      obtain ⟨hle2, hpres2⟩ := ih (batch_upsert_records cfg fpOf now b s).1 hi1
        (by rw [heq1]; exact hf)
      have hleb : s.length ≤ (batch_upsert_records cfg fpOf now b s).1.length := by
        rw [hb]; exact hle
      refine ⟨Nat.le_trans hleb (by simpa using hle2), ?_⟩
      intro hj
      have := hpres2 (by simpa using hj)
      simpa [heq1] using this

/-- Concrete `failed` row for the C5 witness. -/
def stickyFailedRow : OaiRecord :=
  { endpoint := "E", metadata_pfx := "oai_ead", identifier := "id2",
    datestamp := "2026-02-01", fingerprint := "beef", status := "failed",
    message := "boom", metadata := [], index_status := "pending",
    index_message := "", index_attempts := 0, last_checked_at := some 1,
    index_last_checked_at := none, indexed_at := none, purged_at := none,
    version := 1 }

/-- Witness for C5: importing a header for the same identifier with a
newer datestamp leaves the failed row untouched (spec scenario 2). -/
theorem import_keeps_failed_rows_unchanged_witness :
    ∃ hj : 0 < (run_import { endpoint := "E", metadata_pfx := "oai_ead" }
        (fun _ => "beef") 9
        [{ identifier := "id2", datestamp := "2026-02-10", status := "pending" }]
        [stickyFailedRow]).length,
      (run_import { endpoint := "E", metadata_pfx := "oai_ead" }
        (fun _ => "beef") 9
        [{ identifier := "id2", datestamp := "2026-02-10", status := "pending" }]
        [stickyFailedRow])[0] = [stickyFailedRow][0] :=
  import_keeps_failed_rows_unchanged { endpoint := "E", metadata_pfx := "oai_ead" }
    (fun _ => "beef") 9
    [{ identifier := "id2", datestamp := "2026-02-10", status := "pending" }]
    [stickyFailedRow] 0 (by decide) (by decide)

theorem get_record_loop_first_done (oracle : Nat → FetchOutcome)
    (max_retries : Nat) (r : Except String (Option String)) :
    ∀ k i, i + k ≤ max_retries →
      (∀ j, j < k → oracle (i + j) = FetchOutcome.timeout) →
      oracle (i + k) = FetchOutcome.done r →
      get_record_loop oracle max_retries i =
        { calls := k + 1, sleeps := (List.range k).map (fun j => 500 * 2 ^ (i + j)),
          result := some r } := by
  intro k
  induction k with
  | zero =>
      intro i _ _ hr
      have h0 : oracle i = FetchOutcome.done r := by simpa using hr
      unfold get_record_loop
      rw [h0]
      simp
  | succ k ih =>
      intro i hk ht hr
      have h0 : oracle i = FetchOutcome.timeout := by simpa using ht 0 (Nat.succ_pos k)
      have hlt : i < max_retries := by omega
      have hrec := ih (i + 1) (by omega)
        (fun j hj => by
          have := ht (j + 1) (by omega)
          rw [show i + (j + 1) = i + 1 + j by omega] at this
          exact this)
        (by
          have := hr
          rw [show i + (k + 1) = i + 1 + k by omega] at this
          exact this)
      have hs : (500 * 2 ^ i) :: List.map (fun j => 500 * 2 ^ (i + 1 + j)) (List.range k)
          = List.map (fun j => 500 * 2 ^ (i + j)) (List.range (k + 1)) := by
        rw [List.range_succ_eq_map, List.map_cons, List.map_map]
        refine congrArg₂ List.cons (by simp) ?_
        refine List.map_congr_left fun j _ => ?_
        simp only [Function.comp_apply, Nat.succ_eq_add_one]
        rw [show i + 1 + j = i + (j + 1) by omega]
      unfold get_record_loop
      rw [h0]
      rw [dif_pos hlt]
      rw [hrec]
      show ({ calls := k + 1 + 1,
              sleeps := 500 * 2 ^ i ::
                List.map (fun j => 500 * 2 ^ (i + 1 + j)) (List.range k),
              result := some r } : AttemptTrace) = _
      rw [hs]

theorem get_record_loop_exhausted (oracle : Nat → FetchOutcome)
    (max_retries : Nat) :
    ∀ d i, max_retries - i = d → i ≤ max_retries →
      (∀ j, i ≤ j → j ≤ max_retries → oracle j = FetchOutcome.timeout) →
      get_record_loop oracle max_retries i =
        { calls := max_retries - i + 1,
          sleeps := (List.range (max_retries - i)).map (fun j => 500 * 2 ^ (i + j)),
          result := none } := by
  intro d
  induction d with
  | zero =>
      intro i hd hi ht
      have h0 : oracle i = FetchOutcome.timeout := ht i (Nat.le_refl i) hi
      unfold get_record_loop
      rw [h0]
      rw [dif_neg (by omega)]
      simp [hd]
  | succ d ih =>
      intro i hd hi ht
      have h0 : oracle i = FetchOutcome.timeout := ht i (Nat.le_refl i) hi
      have hlt : i < max_retries := by omega
      have hrec := ih (i + 1) (by omega) (by omega)
        (fun j hj1 hj2 => ht j (by omega) hj2)
      have hs : (500 * 2 ^ i) ::
            List.map (fun j => 500 * 2 ^ (i + 1 + j)) (List.range (max_retries - (i + 1)))
          = List.map (fun j => 500 * 2 ^ (i + j)) (List.range (max_retries - i)) := by
        rw [show max_retries - i = (max_retries - (i + 1)) + 1 by omega,
          List.range_succ_eq_map, List.map_cons, List.map_map]
        refine congrArg₂ List.cons (by simp) ?_
        refine List.map_congr_left fun j _ => ?_
        simp only [Function.comp_apply, Nat.succ_eq_add_one]
        rw [show i + 1 + j = i + (j + 1) by omega]
      unfold get_record_loop
      rw [h0]
      rw [dif_pos hlt]
      rw [hrec]
      show ({ calls := max_retries - (i + 1) + 1 + 1,
              sleeps := 500 * 2 ^ i ::
                List.map (fun j => 500 * 2 ^ (i + 1 + j))
                  (List.range (max_retries - (i + 1))),
              result := none } : AttemptTrace) = _
      rw [hs]
      have hc : max_retries - (i + 1) + 1 + 1 = max_retries - i + 1 := by omega
      rw [hc]

/-- C7: in the download phase, `get_record` is retried only on timeouts —
a completed call (success or error) at attempt `k` stops the loop with
`k + 1` calls after back-off sleeps `500·2^0 .. 500·2^(k-1)` ms; when
every attempt up to the budget times out, the loop makes
`oai_retries + 1` calls and the `pending -> failed` transition is applied
with the derived timeout message; a missing payload, a write failure, and
a fetch error likewise apply the `pending -> failed` transition with their
derived messages (the fetch-error case after a single call). -/
theorem download_retry_schedule_and_failure_transitions (cfg : OaiConfig)
    (oai_timeout max_retries : Nat) (oracle : Nat → FetchOutcome)
    (write : WriteOutcome) (now : Nat) (record : OaiRecordId) (db : Store) :
    (∀ k r, k ≤ max_retries → (∀ j, j < k → oracle j = FetchOutcome.timeout) →
       oracle k = FetchOutcome.done r →
       get_record_loop oracle max_retries 0 =
         { calls := k + 1, sleeps := (List.range k).map (fun j => 500 * 2 ^ j),
           result := some r }) ∧
    ((∀ j, j ≤ max_retries → oracle j = FetchOutcome.timeout) →
       get_record_loop oracle max_retries 0 =
         { calls := max_retries + 1,
           sleeps := (List.range max_retries).map (fun j => 500 * 2 ^ j),
           result := none } ∧
       download_record cfg oai_timeout max_retries oracle write now record db =
         mark_record_failed cfg now record
           ("OAI get_record timed out after " ++ toString oai_timeout ++ "s") db) ∧
    (oracle 0 = FetchOutcome.done (Except.ok none) →
       download_record cfg oai_timeout max_retries oracle write now record db =
         mark_record_failed cfg now record "OAI response missing payload" db) ∧
    (∀ pl e, oracle 0 = FetchOutcome.done (Except.ok (some pl)) →
       write = WriteOutcome.err e →
       download_record cfg oai_timeout max_retries oracle write now record db =
         mark_record_failed cfg now record ("Failed to write metadata file: " ++ e) db) ∧
    (∀ e, oracle 0 = FetchOutcome.done (Except.error e) →
       get_record_loop oracle max_retries 0 =
         { calls := 1, sleeps := [], result := some (Except.error e) } ∧
       download_record cfg oai_timeout max_retries oracle write now record db =
         mark_record_failed cfg now record ("Failed to fetch OAI record: " ++ e) db) := by
  refine ⟨?_, ?_, ?_, ?_, ?_⟩
  · intro k r hk ht hr
    have := get_record_loop_first_done oracle max_retries r k 0 (by omega)
      (fun j hj => by simpa using ht j hj) (by simpa using hr)
    simpa using this
  · intro ht
    have hloop := get_record_loop_exhausted oracle max_retries max_retries 0 (by omega)
      (Nat.zero_le _) (fun j _ hj2 => ht j hj2)
    simp only [Nat.sub_zero] at hloop
    have hloop' : get_record_loop oracle max_retries 0 =
        { calls := max_retries + 1,
          sleeps := (List.range max_retries).map (fun j => 500 * 2 ^ j),
          result := none } := by
      rw [hloop]
      simp
    refine ⟨hloop', ?_⟩
    unfold download_record
    rw [hloop']
  · intro h0
    have hloop := get_record_loop_first_done oracle max_retries (Except.ok none)
      0 0 (Nat.zero_le _) (by omega) (by simpa using h0)
    unfold download_record
    rw [hloop]
  · intro pl e h0 hw
    have hloop := get_record_loop_first_done oracle max_retries (Except.ok (some pl))
      0 0 (Nat.zero_le _) (by omega) (by simpa using h0)
    unfold download_record
    rw [hloop, hw]
  · intro e h0
    have hloop := get_record_loop_first_done oracle max_retries (Except.error e)
      0 0 (Nat.zero_le _) (by omega) (by simpa using h0)
    have hloop' : get_record_loop oracle max_retries 0 =
        { calls := 1, sleeps := [], result := some (Except.error e) } := by
      simpa using hloop
    refine ⟨hloop', ?_⟩
    unfold download_record
    rw [hloop']

/-- Witness for C7: with `oai_retries = 2` and an oracle that always times
out, the loop makes 3 calls with sleeps 500·2^0 and 500·2^1 ms and the
failure transition is applied with the timeout message; with an oracle
that returns a fetch error immediately, a single call is made. -/
theorem download_retry_schedule_and_failure_transitions_witness :
    (get_record_loop (fun _ => FetchOutcome.timeout) 2 0 =
       { calls := 2 + 1, sleeps := (List.range 2).map (fun j => 500 * 2 ^ j),
         result := none } ∧
     download_record { endpoint := "E", metadata_pfx := "oai_ead" } 7 2
         (fun _ => FetchOutcome.timeout) WriteOutcome.ok 9 ⟨"id1", "abcd"⟩ [] =
       mark_record_failed { endpoint := "E", metadata_pfx := "oai_ead" } 9
         ⟨"id1", "abcd"⟩
         ("OAI get_record timed out after " ++ toString 7 ++ "s") []) ∧
    (get_record_loop (fun _ => FetchOutcome.done (Except.error "boom")) 2 0 =
       { calls := 1, sleeps := [], result := some (Except.error "boom") } ∧
     download_record { endpoint := "E", metadata_pfx := "oai_ead" } 7 2
         (fun _ => FetchOutcome.done (Except.error "boom")) WriteOutcome.ok 9
         ⟨"id1", "abcd"⟩ [] =
       mark_record_failed { endpoint := "E", metadata_pfx := "oai_ead" } 9
         ⟨"id1", "abcd"⟩ ("Failed to fetch OAI record: " ++ "boom") []) :=
  ⟨(download_retry_schedule_and_failure_transitions
      { endpoint := "E", metadata_pfx := "oai_ead" } 7 2
      (fun _ => FetchOutcome.timeout) WriteOutcome.ok 9 ⟨"id1", "abcd"⟩ []).2.1
      (fun _ _ => rfl),
   (download_retry_schedule_and_failure_transitions
      { endpoint := "E", metadata_pfx := "oai_ead" } 7 2
      (fun _ => FetchOutcome.done (Except.error "boom")) WriteOutcome.ok 9
      ⟨"id1", "abcd"⟩ []).2.2.2.2 "boom" rfl⟩

/-- Identifiers of the rows inside one endpoint+prefix scope; invariant I1
(identity-triple uniqueness) makes this list duplicate-free. -/
def scopeIdents (endpoint metadata_pfx : String) (s : Store) : List String :=
  (s.filter fun r => r.endpoint == endpoint && r.metadata_pfx == metadata_pfx).map
    OaiRecord.identifier

theorem fetch_records_by_status_batch_spec (p : FetchRecordsParams) (db : Store)
    (h : (scopeIdents p.endpoint p.metadata_pfx db).Nodup) :
    List.Chain' (· < ·) ((fetch_records_by_status p db).map OaiRecordId.identifier) ∧
    (∀ x ∈ (fetch_records_by_status p db).map OaiRecordId.identifier,
       ∀ l, p.last_identifier = some l → l < x) ∧
    (fetch_records_by_status p db).length ≤ 100 := by
  have hids : (fetch_records_by_status p db).map OaiRecordId.identifier =
      (((db.filter (fetchByStatusPred p)).mergeSort identLE).take 100).map
        OaiRecord.identifier := by
    simp only [fetch_records_by_status, List.map_map]
    rfl
  have htrans : ∀ a b c : OaiRecord,
      identLE a b = true → identLE b c = true → identLE a c = true := by
    intro a b c hab hbc
    simp only [identLE, decide_eq_true_eq] at hab hbc ⊢
    exact le_trans hab hbc
  have htotal : ∀ a b : OaiRecord, (identLE a b || identLE b a) = true := by
    intro a b
    simp only [identLE, Bool.or_eq_true, decide_eq_true_eq]
    exact le_total a.identifier b.identifier
  have hpw := List.sorted_mergeSort htrans htotal (db.filter (fetchByStatusPred p))
  have hpt : (((db.filter (fetchByStatusPred p)).mergeSort identLE).take 100).Pairwise
      (fun a b => identLE a b = true) :=
    List.Pairwise.sublist (List.take_sublist 100 _) hpw
  have hle_ids : ((((db.filter (fetchByStatusPred p)).mergeSort identLE).take 100).map
      OaiRecord.identifier).Pairwise (· ≤ ·) := by
    rw [List.pairwise_map]
    exact hpt.imp (fun hab => by simpa [identLE] using hab)
  have hsub : List.Sublist (db.filter (fetchByStatusPred p))
      (db.filter (fun r => r.endpoint == p.endpoint && r.metadata_pfx == p.metadata_pfx)) := by
    refine List.monotone_filter_right db ?_
    intro r hr
    simp only [fetchByStatusPred, Bool.and_eq_true] at hr
    simp [hr.1.1.1, hr.1.1.2]
  have hnodup_base : ((db.filter (fetchByStatusPred p)).map OaiRecord.identifier).Nodup :=
    List.Nodup.sublist (hsub.map OaiRecord.identifier) h
  have hperm : List.Perm ((db.filter (fetchByStatusPred p)).mergeSort identLE)
      (db.filter (fetchByStatusPred p)) := List.mergeSort_perm _ identLE
  have hnodup_sorted : (((db.filter (fetchByStatusPred p)).mergeSort identLE).map
      OaiRecord.identifier).Nodup :=
    (hperm.map OaiRecord.identifier).nodup_iff.mpr hnodup_base
  have hnodup_t : ((((db.filter (fetchByStatusPred p)).mergeSort identLE).take 100).map
      OaiRecord.identifier).Nodup :=
    List.Nodup.sublist ((List.take_sublist 100 _).map OaiRecord.identifier) hnodup_sorted
  have hlt_ids : ((((db.filter (fetchByStatusPred p)).mergeSort identLE).take 100).map
      OaiRecord.identifier).Pairwise (· < ·) :=
    (hle_ids.and hnodup_t).imp (fun hab => lt_of_le_of_ne hab.1 hab.2)
  refine ⟨?_, ?_, ?_⟩
  · rw [hids]
    exact hlt_ids.chain'
  · intro x hx l hsome
    rw [hids] at hx
    obtain ⟨r, hrt, rfl⟩ := List.mem_map.mp hx
    have hrs : r ∈ (db.filter (fetchByStatusPred p)).mergeSort identLE :=
      (List.take_sublist 100 _).subset hrt
    have hrb : r ∈ db.filter (fetchByStatusPred p) := hperm.mem_iff.mp hrs
    have hpred := (List.mem_filter.mp hrb).2
    simp only [fetchByStatusPred, hsome, Bool.and_eq_true, decide_eq_true_eq] at hpred
    exact hpred.2
  · simp only [fetch_records_by_status, List.length_map, List.length_take]
    omega

/-- Sweep of a harvester phase over `fetch_records_by_status` with the
phase's per-batch transitions abstracted as `stepStore` (the download and
metadata loops in `src/harvester/download.rs` / `src/harvester/metadata.rs`
advance `last_identifier` exactly like this). -/
def harvesterSweep (endpoint metadata_pfx status : String)
    (stepStore : Store → List OaiRecordId → Store) (fuel : Nat)
    (last : Option String) (db : Store) : List (List OaiRecordId) :=
  sweepBatches
    (fun l s => fetch_records_by_status
      { endpoint := endpoint, metadata_pfx := metadata_pfx, status := status,
        last_identifier := l } s)
    stepStore fuel last db

/-- C8: across the batches of one phase sweep the identifier sequence is
strictly increasing under lexicographic string comparison — each batch is
sorted, limited to 100 rows, and every batch after the first contains only
identifiers strictly greater than the previous batch's last identifier —
provided identifiers are unique within the endpoint+prefix scope (I1) and
the per-batch transitions preserve that uniqueness. -/
theorem keyset_sweep_identifiers_strictly_increasing
    (endpoint metadata_pfx status : String)
    (stepStore : Store → List OaiRecordId → Store)
    (hpres : ∀ s b, (scopeIdents endpoint metadata_pfx s).Nodup →
      (scopeIdents endpoint metadata_pfx (stepStore s b)).Nodup)
    (fuel : Nat) :
    ∀ (db : Store) (last : Option String),
      (scopeIdents endpoint metadata_pfx db).Nodup →
      List.Chain' (· < ·)
        ((List.flatten (harvesterSweep endpoint metadata_pfx status stepStore fuel
          last db)).map OaiRecordId.identifier) ∧
      (∀ x ∈ (List.flatten (harvesterSweep endpoint metadata_pfx status stepStore fuel
          last db)).map OaiRecordId.identifier,
        ∀ l, last = some l → l < x) ∧
      (∀ b ∈ harvesterSweep endpoint metadata_pfx status stepStore fuel last db,
        b.length ≤ 100) := by
  induction fuel with
  | zero =>
      intro db last _
      simp [harvesterSweep, sweepBatches]
  | succ fuel ih =>
      intro db last h0
      have hspec := fetch_records_by_status_batch_spec
        { endpoint := endpoint, metadata_pfx := metadata_pfx, status := status,
          last_identifier := last } db h0
      cases hlast : (fetch_records_by_status
          { endpoint := endpoint, metadata_pfx := metadata_pfx, status := status,
            last_identifier := last } db).getLast? with
      | none =>
          have hsw : harvesterSweep endpoint metadata_pfx status stepStore
              (fuel + 1) last db = [] := by
            simp [harvesterSweep, sweepBatches, hlast]
          rw [hsw]
          simp
      | some lastRec =>
          by_cases hshort : (fetch_records_by_status
              { endpoint := endpoint, metadata_pfx := metadata_pfx, status := status,
                last_identifier := last } db).length < 100
          · have hsw : harvesterSweep endpoint metadata_pfx status stepStore
                (fuel + 1) last db =
                [fetch_records_by_status
                  { endpoint := endpoint, metadata_pfx := metadata_pfx,
                    status := status, last_identifier := last } db] := by
              simp [harvesterSweep, sweepBatches, hlast, hshort]
            rw [hsw]
            refine ⟨by simpa using hspec.1, ?_, ?_⟩
            · intro x hx l hl
              refine hspec.2.1 x ?_ l hl
              simpa using hx
            · intro b hb
              rw [List.mem_singleton.mp hb]
              exact hspec.2.2
          · have hsw : harvesterSweep endpoint metadata_pfx status stepStore
                (fuel + 1) last db =
                (fetch_records_by_status
                  { endpoint := endpoint, metadata_pfx := metadata_pfx,
                    status := status, last_identifier := last } db) ::
                harvesterSweep endpoint metadata_pfx status stepStore fuel
                  (some lastRec.identifier)
                  (stepStore db (fetch_records_by_status
                    { endpoint := endpoint, metadata_pfx := metadata_pfx,
                      status := status, last_identifier := last } db)) := by
              simp [harvesterSweep, sweepBatches, hlast, hshort]
            obtain ⟨ihc, ihgt, ihlen⟩ := ih
              (stepStore db (fetch_records_by_status
                { endpoint := endpoint, metadata_pfx := metadata_pfx,
                  status := status, last_identifier := last } db))
              (some lastRec.identifier) (hpres db _ h0)
            have hlastmem : lastRec.identifier ∈ (fetch_records_by_status
                { endpoint := endpoint, metadata_pfx := metadata_pfx,
                  status := status, last_identifier := last } db).map
                OaiRecordId.identifier :=
              List.mem_map.mpr ⟨lastRec, List.mem_of_getLast?_eq_some hlast, rfl⟩
            rw [hsw]
            refine ⟨?_, ?_, ?_⟩
            · rw [List.flatten_cons, List.map_append]
              refine List.Chain'.append hspec.1 ihc ?_
              intro x hx y hy
              rw [List.getLast?_map, hlast] at hx
              have hxe : lastRec.identifier = x := by
                simpa using hx
              rw [← hxe]
              exact ihgt y (List.mem_of_mem_head? hy) lastRec.identifier rfl
            · intro x hx l hl
              rw [List.flatten_cons, List.map_append, List.mem_append] at hx
              rcases hx with hx | hx
              · exact hspec.2.1 x hx l hl
              · have h1 : l < lastRec.identifier := hspec.2.1 _ hlastmem l hl
                have h2 : lastRec.identifier < x := ihgt x hx lastRec.identifier rfl
                exact lt_trans h1 h2
            · intro b hb
              rcases List.mem_cons.mp hb with hb | hb
              · rw [hb]
                exact hspec.2.2
              · exact ihlen b hb

/-- Pending row used by the sweep witness. -/
def sweepRow (ident : String) : OaiRecord :=
  { endpoint := "E", metadata_pfx := "oai_ead", identifier := ident,
    datestamp := "2026-01-01", fingerprint := "abcd", status := "pending",
    message := "", metadata := [], index_status := "pending",
    index_message := "", index_attempts := 0, last_checked_at := none,
    index_last_checked_at := none, indexed_at := none, purged_at := none,
    version := 1 }

/-- Witness for C8 at a two-row pending store. -/
theorem keyset_sweep_identifiers_strictly_increasing_witness :
    List.Chain' (· < ·)
      ((List.flatten (harvesterSweep "E" "oai_ead" "pending" (fun s _ => s) 1 none
        [sweepRow "a", sweepRow "b"])).map OaiRecordId.identifier) ∧
    (∀ x ∈ (List.flatten (harvesterSweep "E" "oai_ead" "pending" (fun s _ => s) 1 none
        [sweepRow "a", sweepRow "b"])).map OaiRecordId.identifier,
      ∀ l, (none : Option String) = some l → l < x) ∧
    (∀ b ∈ harvesterSweep "E" "oai_ead" "pending" (fun s _ => s) 1 none
        [sweepRow "a", sweepRow "b"], b.length ≤ 100) :=
  keyset_sweep_identifiers_strictly_increasing "E" "oai_ead" "pending"
    (fun s _ => s) (fun _ _ h => h) 1 [sweepRow "a", sweepRow "b"] none (by decide)

/-- Batch input of the C6 scenario: the first record's XML file is
missing, the second extracts successfully. -/
def metadataBatchInput : List (OaiRecordId × MetadataFileResult) :=
  [(⟨"a-missing-file", "aaaa"⟩,
      MetadataFileResult.openError "No such file or directory (os error 2)"),
   (⟨"b-existing-file", "bbbb"⟩,
      MetadataFileResult.extracted (Except.ok [("title", ["t"])]))]

/-- Two `available` rows matching the C6 batch. -/
def metadataStore : Store :=
  [{ endpoint := "E", metadata_pfx := "oai_ead", identifier := "a-missing-file",
     datestamp := "2026-01-01", fingerprint := "aaaa", status := "available",
     message := "", metadata := [], index_status := "pending",
     index_message := "", index_attempts := 0, last_checked_at := some 1,
     index_last_checked_at := none, indexed_at := none, purged_at := none,
     version := 1 },
   { endpoint := "E", metadata_pfx := "oai_ead", identifier := "b-existing-file",
     datestamp := "2026-01-01", fingerprint := "bbbb", status := "available",
     message := "", metadata := [], index_status := "pending",
     index_message := "", index_attempts := 0, last_checked_at := some 1,
     index_last_checked_at := none, indexed_at := none, purged_at := none,
     version := 1 }]

/-- C6 evaluation at the failing input: the metadata sweep body hits the
missing file, aborts with the open error, processes zero records and
leaves both rows untouched (in particular the first row is never
transitioned `available -> failed`, and the second is never visited) —
against the claim and the repository's own integration test
`metadata_missing_file_marks_failed_and_continues`. -/
theorem metadata_missing_file_aborts_sweep :
    metadata_process_batch { endpoint := "E", metadata_pfx := "oai_ead" } 9
        metadataBatchInput metadataStore =
      (metadataStore, 0, some "No such file or directory (os error 2)") := by
  decide

/-- Parsed+pending record whose traject run will fail once (the C4
failing input). -/
def indexFailRow : OaiRecord :=
  { endpoint := "E", metadata_pfx := "oai_ead", identifier := "idx1",
    datestamp := "2026-01-01", fingerprint := "abcd", status := "parsed",
    message := "", metadata := [("repository", ["R"])],
    index_status := "pending", index_message := "", index_attempts := 0,
    last_checked_at := some 1, index_last_checked_at := none,
    indexed_at := none, purged_at := none, version := 1 }

/-- One index sweep over `indexFailRow` composing the cited code: the
ArcLight `index_record` (which marks the failure itself and returns
`Err`) driven by `process_records` (which marks the failure again on
`Err`). -/
def indexFailRun : Store × Nat × Nat :=
  process_records
    (fun l s => fetch_pending_records_for_indexing
      { endpoint := "E", metadata_pfx := "oai_ead", oai_repository := "R",
        max_attempts := none, message_filter := none, last_identifier := l } s)
    (arclight_index_record "E" "oai_ead" 9 false (TrajectOutcome.exitFailure "boom"))
    (fun rec s => do_mark_index_success_query 9
      { endpoint := "E", metadata_pfx := "oai_ead", identifier := rec.identifier } s)
    (fun rec msg s => do_mark_index_failure_query 9
      { endpoint := "E", metadata_pfx := "oai_ead", identifier := rec.identifier,
        message := msg } s)
    false 2 none [indexFailRow] 0 0

unseal List.merge List.mergeSort in
/-- C4 evaluation at the failing input: after one traject failure the
index-failure transition fires twice — once inside `index_record`
(`src/indexer/arclight/mod.rs`) and once in the `Err` arm of
`process_records` (`src/indexer/mod.rs`) — so `index_attempts` ends at 2
for a single failed attempt, while the claim (and the repository's test
`index_failure_marks_record_index_failed`) demand exactly 1. -/
theorem index_failure_transition_applied_twice :
    indexFailRun =
      ([{ indexFailRow with
          index_status := "index_failed",
          index_message := "traject failed: boom",
          index_attempts := 2,
          index_last_checked_at := some 9 }], 0, 1) ∧
    indexFailRow.index_attempts = 0 := by
  refine ⟨?_, by decide⟩
  decide

/-- C10: a preview sweep of the indexer worker loop leaves the store
bit-for-bit unchanged — no work function, mark-success or mark-failure is
ever consulted — counts every fetched record as succeeded, and records no
failures. -/
theorem preview_sweep_leaves_store_untouched
    (fetchB : Option String → Store → List OaiRecordId)
    (work : OaiRecordId → Store → Store × Except String Unit)
    (markS : OaiRecordId → Store → Store × Nat)
    (markF : OaiRecordId → String → Store → Store × Nat)
    (fuel : Nat) (last : Option String) (db : Store) (succeeded failed : Nat) :
    process_records fetchB work markS markF true fuel last db succeeded failed =
      (db, succeeded +
        (List.flatten (sweepBatches fetchB (fun s _ => s) fuel last db)).length,
       failed) := by
  induction fuel generalizing last succeeded with
  | zero => simp [process_records, sweepBatches]
  | succ fuel ih =>
      cases hlast : (fetchB last db).getLast? with
      | none => simp [process_records, sweepBatches, hlast]
      | some lastRec =>
          by_cases hshort : (fetchB last db).length < 100
          · simp [process_records, sweepBatches, hlast, hshort]
          · simp only [process_records, sweepBatches, hlast, hshort, if_false, ih]
            simp [hshort]
            omega

end Harvester
